import Mathlib

/-!
Shallow embedding of the ETH/USDT trading strategy in `EthStrategy.py`
(classes `Config`, `StateStore`, `Computations`, `Guards`,
`InventoryBootstrap`, `EntryExit`, `RiskSizer`, `OrderLifecycle`,
`Strategy`).  Python floats are modelled as rationals (ideal real
semantics), Python `round(x, n)` as round-half-to-even on rationals,
Python dicts built by comprehensions as association lists with
last-value-wins insertion, and venue calls as emitted `Action`s whose
success is an explicit boolean input (the Python code wraps each call
in `try/except Exception: pass`).
-/

namespace CryptoBot

/-- Python `round`'s tie behaviour: round half to even, on integers.
`x` rounds to its floor `f` when `x < f + 1/2` (stated as `2x < 2f + 1`),
to `f + 1` when `x > f + 1/2`, and to the even neighbour on a tie. -/
def roundHalfEven (x : ℚ) : ℤ :=
  let f := ⌊x⌋
  if 2 * x < 2 * f + 1 then f
  else if 2 * f + 1 < 2 * x then f + 1
  else if f % 2 = 0 then f else f + 1

/-- Python `round(x, n)` on the ideal (rational) value. -/
def pyround (x : ℚ) (n : ℕ) : ℚ :=
  (roundHalfEven (x * 10 ^ n) : ℚ) / 10 ^ n

/-- Python `a or b` on two optional floats: `a` unless it is `None` or `0.0`. -/
def pyOrOpt (a b : Option ℚ) : Option ℚ :=
  match a with
  | some v => if v = 0 then b else some v
  | none => b

namespace Config

/-- `Config.exposure_cap_notional_pct = 0.30` -/
def exposure_cap_notional_pct : ℚ := 30/100
/-- `Config.target_alloc_pct = 0.50` -/
def target_alloc_pct : ℚ := 50/100
/-- `Config.target_band = 0.08` -/
def target_band : ℚ := 8/100
/-- `Config.base_risk_pct = 0.006` -/
def base_risk_pct : ℚ := 6/1000
/-- `Config.max_adds = 4` -/
def max_adds : ℕ := 4
/-- `Config.add_size_decay = 0.80` -/
def add_size_decay : ℚ := 80/100
/-- `Config.add_spacing_atr = 0.70` -/
def add_spacing_atr : ℚ := 70/100
/-- `Config.grid_step_min_pct = 0.007` -/
def grid_step_min_pct : ℚ := 7/1000
/-- `Config.trend_tp_floor_pct = 0.011` -/
def trend_tp_floor_pct : ℚ := 11/1000
/-- `Config.range_tp_floor_pct = 0.008` -/
def range_tp_floor_pct : ℚ := 8/1000
/-- `Config.trail_arm_atr = 1.00` -/
def trail_arm_atr : ℚ := 1
/-- `Config.trail_dist_trend_atr = 0.80` -/
def trail_dist_trend_atr : ℚ := 80/100
/-- `Config.trail_dist_range_atr = 1.10` -/
def trail_dist_range_atr : ℚ := 110/100
/-- `Config.no_rebuy_buffer_atr = 0.40` -/
def no_rebuy_buffer_atr : ℚ := 40/100
/-- `Config.spread_max_bps = 15` -/
def spread_max_bps : ℚ := 15
/-- `Config.unfilled_timeout_sec = 90` -/
def unfilled_timeout_sec : ℚ := 90

end Config

/-- `StateStore`: the persisted strategy state (`EthStrategy.py` lines 70-97). -/
structure StateStore where
  last_regime : Option String := none
  last_exit_price : Option ℚ := none
  last_grid_anchor : Option ℚ := none
  trail_active : Bool := false
  trail_anchor_price : Option ℚ := none
  trail_dist_atr : Option ℚ := none
  add_count : ℕ := 0
  last_add_price : Option ℚ := none
  bootstrap_state : String := "PENDING"
  daily_loss_realized : ℚ := 0
  open_order_intent_hash : Option String := none
  entry_price : Option ℚ := none
deriving DecidableEq, Repr

/-- `Computations.unit_risk`: `max(0.8*atr14, 0.012*price)`. -/
def unit_risk (atr14 price : ℚ) : ℚ :=
  max (8/10 * atr14) (12/1000 * price)

/-- `Computations.base_stake` (default precision 6). -/
def base_stake (equity u_risk : ℚ) : ℚ :=
  let risk_budget := Config.base_risk_pct * equity
  let stake_qty := if u_risk = 0 then 0 else risk_budget / u_risk
  pyround stake_qty 6

/-- `Computations.exposure_cap_notional`. -/
def exposure_cap_notional (equity : ℚ) : ℚ :=
  Config.exposure_cap_notional_pct * equity

/-- Account balances (the four fields `Data.load_balances` returns). -/
structure Balances where
  usdt_free : ℚ := 0
  eth_free : ℚ := 0
  usdt_locked : ℚ := 0
  eth_locked : ℚ := 0
deriving DecidableEq, Repr

/-- `Computations.allocation_pct` (Python truthiness: zero portfolio value gives 0). -/
def allocation_pct (bal : Balances) (price : ℚ) : ℚ :=
  let eth_val := (bal.eth_free + bal.eth_locked) * price
  let usdt_val := bal.usdt_free + bal.usdt_locked
  let port_val := eth_val + usdt_val
  if port_val = 0 then 0 else eth_val / port_val

/-- The decayed add sizes appended by `RiskSizer.compute_stakes`'s loop:
each appended entry is `round(qty, 6)` of the running unrounded `qty`. -/
def buildAdds (qty : ℚ) : ℕ → List ℚ
  | 0 => []
  | n + 1 =>
    let q := qty * Config.add_size_decay
    pyround q 6 :: buildAdds q n

/-- The full (pre-cap) stake sequence `[base_qty] ++ decayed adds`. -/
def stakesSeq (base_qty : ℚ) : List ℚ :=
  base_qty :: buildAdds base_qty Config.max_adds

/-- The cap-walk loop of `RiskSizer.compute_stakes`: accumulate notional
`q*price` and stop (dropping the rest) at the first stake whose inclusion
would exceed `cap`. -/
def clipStakes (price cap : ℚ) : List ℚ → ℚ → List ℚ
  | [], _ => []
  | q :: rest, total =>
    let notional := q * price
    if total + notional > cap then []
    else q :: clipStakes price cap rest (total + notional)

/-- `RiskSizer.compute_stakes(equity, unit_risk, price)`. -/
def compute_stakes (equity u_risk price : ℚ) : List ℚ :=
  let base_qty := base_stake equity u_risk
  let stakes := stakesSeq base_qty
  let cap_notional := exposure_cap_notional equity
  clipStakes price cap_notional stakes 0

/-- `Guards.spread_ok`. -/
def spread_ok (spread_bps : ℚ) : Bool :=
  spread_bps ≤ Config.spread_max_bps

/-- `Guards.data_fresh`: false on an empty 5m frame, else the last candle
time (ms) is at most 10 minutes before server time. -/
def data_fresh (c5_last_time : Option ℤ) (srv_time_ms : ℤ) : Bool :=
  match c5_last_time with
  | none => false
  | some t => srv_time_ms - t ≤ 10 * 60 * 1000

/-- `Guards.daily_loss_ok` (defined in the source but never called by
`Strategy.on_tick`). -/
def daily_loss_ok (st : StateStore) (equity : ℚ) : Bool :=
  st.daily_loss_realized ≤ 12/1000 * equity

/-- A dict-shaped order (desired or live).  Absent dict keys are `none`;
live ccxt orders carry `amount`/`id`/`timestamp`, desired orders carry
`qty` and optionally `price`, `otype` (the `"type"` key) and `post_only`. -/
structure PyOrder where
  side : String := ""
  price : Option ℚ := none
  qty : Option ℚ := none
  amount : Option ℚ := none
  id : Option String := none
  post_only : Bool := false
  otype : Option String := none
  timestamp : Option ℤ := none
deriving DecidableEq, Repr

/-- A venue call emitted by the strategy (`create_order` / `cancel_order`
arguments as passed to ccxt). -/
inductive Action where
  | create (otype side : String) (qty : ℚ) (price : Option ℚ) (postOnly : Bool)
  | cancel (id : String)
deriving DecidableEq, Repr

/-- The reconciliation key of `OrderLifecycle.reconcile_orders`:
`(side, round(price or 0, precision), round(qty or amount or 0, precision))`.
Note the single `precision` argument is used for both price and quantity. -/
def orderKey (precision : ℕ) (o : PyOrder) : String × ℚ × ℚ :=
  (o.side, pyround (o.price.getD 0) precision,
    pyround (o.qty.getD (o.amount.getD 0)) precision)

/-- Python dict assignment `m[k] = v`: replace in place if the key exists
(keeping its position), else append. -/
def dictInsert (m : List ((String × ℚ × ℚ) × PyOrder)) (k : String × ℚ × ℚ)
    (v : PyOrder) : List ((String × ℚ × ℚ) × PyOrder) :=
  if m.any (fun p => p.1 = k) then
    m.map (fun p => if p.1 = k then (p.1, v) else p)
  else m ++ [(k, v)]

/-- The dict comprehension `{key(o): o for o in orders}`. -/
def buildMap (precision : ℕ) (orders : List PyOrder) :
    List ((String × ℚ × ℚ) × PyOrder) :=
  orders.foldl (fun m o => dictInsert m (orderKey precision o) o) []

/-- `k in m` for the association-list model of a dict. -/
def hasKey (m : List ((String × ℚ × ℚ) × PyOrder)) (k : String × ℚ × ℚ) : Bool :=
  m.any (fun p => p.1 = k)

/-- The placement attempted by `reconcile_orders` for one missing desired
order: price rounds only if the `price` key is present (else a market
order), and priced orders must meet `min_notional`; failures to meet it
are silently dropped. -/
def placeOrderAction (precision : ℕ) (min_notional : ℚ) (o : PyOrder) :
    Option Action :=
  let price := if o.price.isSome then some (pyround (o.price.getD 0) precision) else none
  let qty := pyround (o.qty.getD 0) precision
  if price = none ∨ price.getD 0 * qty ≥ min_notional then
    some (Action.create (o.otype.getD (if price.isSome then "limit" else "market"))
      o.side qty price o.post_only)
  else none

/-- `OrderLifecycle.reconcile_orders`: cancel live orders whose key is not
desired (a missing `id` raises inside the `try` and is swallowed), then
place desired orders whose key is not live. -/
def reconcile_orders (desired_set open_orders : List PyOrder) (precision : ℕ)
    (min_notional : ℚ) : List Action :=
  let desired_map := buildMap precision desired_set
  let open_map := buildMap precision open_orders
  let cancels := (open_map.filter (fun p => ! hasKey desired_map p.1)).filterMap
    (fun p => p.2.id.map Action.cancel)
  let places := (desired_map.filter (fun p => ! hasKey open_map p.1)).filterMap
    (fun p => placeOrderAction precision min_notional p.2)
  cancels ++ places

/-- `OrderLifecycle.handle_timeouts`: cancel any open order whose (truthy)
timestamp is more than `unfilled_timeout_sec` seconds old; `(now-ts)/1000`
is Python true division. -/
def handle_timeouts (open_orders : List PyOrder) (now_ms : ℤ) : List Action :=
  open_orders.filterMap (fun o =>
    match o.timestamp with
    | none => none
    | some ts =>
      if ts ≠ 0 ∧ ((now_ms : ℚ) - (ts : ℚ)) / 1000 > Config.unfilled_timeout_sec then
        o.id.map Action.cancel
      else none)

/-- `InventoryBootstrap.desired_inventory_orders` (the 1h VWAP is an input;
indicator math is a library per the spec). -/
def desired_inventory_orders (vwap1h : ℚ) (bal : Balances) (price atr14 : ℚ) :
    List PyOrder :=
  let alloc := allocation_pct bal price
  let v := vwap1h
  let step := 6/10 * atr14
  if alloc > Config.target_alloc_pct + Config.target_band then
    let level := v + step
    let qty := (alloc - (Config.target_alloc_pct + Config.target_band)) *
      (bal.eth_free + bal.eth_locked)
    [{ side := "sell", price := some level, qty := some |qty| }]
  else if alloc < Config.target_alloc_pct - Config.target_band then
    let level := v - step
    let usdt_value := (Config.target_alloc_pct - Config.target_band - alloc) *
      (bal.usdt_free + bal.usdt_locked + price * (bal.eth_free + bal.eth_locked))
    let qty := if price = 0 then 0 else usdt_value / price
    [{ side := "buy", price := some level, qty := some |qty| }]
  else []

/-- The signal dict of `EntryExit.entry_signals`: a TREND dict holds
`long_breakout`, any other regime's dict holds `grid_step`. -/
inductive Signals where
  | trend (long_breakout : Bool)
  | range (grid_step : ℚ)
deriving DecidableEq, Repr

/-- `sig.get("long_breakout")` (falsy on a RANGE dict). -/
def sigLongBreakout : Signals → Bool
  | .trend b => b
  | .range _ => false

/-- `"grid_step" in sig`. -/
def sigHasGridStep : Signals → Bool
  | .trend _ => false
  | .range _ => true

/-- `sig["grid_step"]` (only evaluated on RANGE dicts). -/
def sigGridStep : Signals → ℚ
  | .trend _ => 0
  | .range g => g

/-- `EntryExit.entry_signals` with the indicator values (ATR14, 1h VWAP,
anchored weekly VWAP, 20-bar Donchian high, last close) as inputs. -/
def entry_signals (atr14 vwap1h aweekly dc_high last_close : ℚ)
    (regime_value : String) : Signals :=
  if regime_value = "TREND" then
    .trend (decide (last_close > dc_high ∨ last_close > aweekly))
  else
    .range (max (3/4 * atr14) (Config.grid_step_min_pct * vwap1h))

/-- `EntryExit.exit_rules`: `(tp_dist, trail_arm, trail_dist, rebuy_buffer)`.
The `last_exit_price` argument is accepted and ignored, as in the source. -/
def exit_rules (regime_value : String) (atr14 entry_price : ℚ)
    (last_exit_price : Option ℚ) : ℚ × ℚ × ℚ × ℚ :=
  if regime_value = "TREND" then
    (max (13/10 * atr14) (Config.trend_tp_floor_pct * entry_price),
      Config.trail_arm_atr * atr14, Config.trail_dist_trend_atr * atr14,
      Config.no_rebuy_buffer_atr * atr14)
  else
    (max (11/10 * atr14) (Config.range_tp_floor_pct * entry_price),
      Config.trail_arm_atr * atr14, Config.trail_dist_range_atr * atr14,
      Config.no_rebuy_buffer_atr * atr14)

/-- The trailing "Adds on adverse moves" block of `Strategy.monitor_position`
(lines 587-605).  `order_ok` is the outcome of the attempted `create_order`
(exceptions are swallowed; on failure no state is touched). -/
def adds_step (st : StateStore) (stakes : List ℚ) (atr14 price : ℚ)
    (price_prec qty_prec : ℕ) (order_ok : Bool) : StateStore × List Action :=
  if (st.add_count : ℤ) < (stakes.length : ℤ) - 1 then
    match pyOrOpt st.last_add_price st.entry_price with
    | none => (st, [])
    | some last_price =>
      if last_price ≠ 0 ∧ last_price - price ≥ Config.add_spacing_atr * atr14 then
        let add_qty := stakes.getD (st.add_count + 1) 0
        let add_price := pyround price price_prec
        let act := Action.create "limit" "buy" (pyround add_qty qty_prec)
          (some add_price) true
        if order_ok then
          ({ st with add_count := st.add_count + 1, last_add_price := some price },
            [act])
        else (st, [act])
      else (st, [])
  else (st, [])

/-- `Strategy.monitor_position`.  `order_ok` is the venue outcome of the at
most one `create_order` this invocation attempts (TP sell, trailing-stop
sell, or add buy); the Python code swallows the exception on failure. -/
def monitor_position (st : StateStore) (reg : String) (atr14 price : ℚ)
    (stakes : List ℚ) (bal : Balances) (price_prec qty_prec : ℕ)
    (order_ok : Bool) : StateStore × List Action :=
  let pos_qty := bal.eth_free + bal.eth_locked
  if pos_qty ≤ 0 then
    ({ st with entry_price := none, trail_active := false }, [])
  else
    let st := if st.entry_price = none then
        { st with entry_price := some price, last_add_price := some price }
      else st
    let entry := st.entry_price.getD price
    let rules := exit_rules reg atr14 entry st.last_exit_price
    let tp_dist := rules.1
    let trail_arm := rules.2.1
    let trail_dist := rules.2.2.1
    if price ≥ entry + tp_dist then
      let st := if order_ok then { st with last_exit_price := some price } else st
      ({ st with entry_price := none, add_count := 0, trail_active := false },
        [Action.create "market" "sell" (pyround pos_qty qty_prec) none false])
    else if st.trail_active = false ∧ price - entry ≥ trail_arm then
      let st := { st with trail_active := true, trail_anchor_price := some price, trail_dist_atr := some trail_dist }
      adds_step st stakes atr14 price price_prec qty_prec order_ok
    else if st.trail_active then
      let st := if price > st.trail_anchor_price.getD 0 then
          { st with trail_anchor_price := some price }
        else st
      let stop_price := st.trail_anchor_price.getD 0 -
        (pyOrOpt st.trail_dist_atr (some trail_dist)).getD 0
      if price ≤ stop_price then
        let st := if order_ok then { st with last_exit_price := some price } else st
        ({ st with entry_price := none, add_count := 0, trail_active := false },
          [Action.create "market" "sell" (pyround pos_qty qty_prec) none false])
      else
        adds_step st stakes atr14 price price_prec qty_prec order_ok
    else
      adds_step st stakes atr14 price price_prec qty_prec order_ok

/-- The per-tick market snapshot: everything `Strategy.on_tick` fetches
from the venue gateway, with candle series represented by the derived
indicator values the tick consumes, plus the venue outcome for
`monitor_position`'s order attempt. -/
structure Snapshot where
  c5_last_time : Option ℤ := none
  srv_time_ms : ℤ := 0
  now_ms : ℤ := 0
  spread : ℚ := 0
  regime : String := "RANGE"
  atr14 : ℚ := 0
  price : ℚ := 0
  vwap1h : ℚ := 0
  aweekly : ℚ := 0
  dc_high : ℚ := 0
  bal : Balances := {}
  open_orders : List PyOrder := []
  price_precision : ℕ := 2
  qty_precision : ℕ := 6
  min_notional : ℚ := 10
  order_ok : Bool := true
deriving Repr

/-- `Strategy.on_tick`.  Returns `none` when the tick raises an uncaught
exception (the RANGE grid branch indexes `stakes[0]` without a guard);
otherwise the post-tick state and the venue calls attempted, in order. -/
def on_tick (st : StateStore) (s : Snapshot) : Option (StateStore × List Action) :=
  if data_fresh s.c5_last_time s.srv_time_ms = false then some (st, [])
  else if spread_ok (s.spread * 10000) = false then some (st, [])
  else
    let reg := s.regime
    let atr14 := s.atr14
    let px := s.price
    let u_risk := unit_risk atr14 px
    let equity := px * (s.bal.eth_free + s.bal.eth_locked) +
      s.bal.usdt_free + s.bal.usdt_locked
    if st.bootstrap_state ≠ "DONE" then
      let desired := desired_inventory_orders s.vwap1h s.bal px atr14
      let acts := reconcile_orders desired s.open_orders s.price_precision s.min_notional
      let alloc := allocation_pct s.bal px
      if Config.target_alloc_pct - Config.target_band ≤ alloc ∧
          alloc ≤ Config.target_alloc_pct + Config.target_band then
        some ({ st with bootstrap_state := "DONE" }, acts)
      else some (st, acts)
    else
      let stakes := compute_stakes equity u_risk px
      let sig := entry_signals atr14 s.vwap1h s.aweekly s.dc_high px reg
      let entryRes : Option (StateStore × List PyOrder) :=
        if reg = "TREND" ∧ sigLongBreakout sig then
          let qty := stakes.headD 0
          some ({ st with entry_price := some px, last_add_price := some px, add_count := 0 },
            [{ side := "buy", otype := some "market", qty := some qty }])
        else if reg = "RANGE" ∧ sigHasGridStep sig then
          match stakes with
          | [] => none
          | q :: _ =>
            let anchor := s.vwap1h
            let step := sigGridStep sig
            some (st,
              [{ side := "buy", price := some (anchor - step), qty := some q,
                 post_only := true },
               { side := "sell", price := some (anchor + step), qty := some q,
                 post_only := true }])
        else some (st, [])
      match entryRes with
      | none => none
      | some (st1, desired) =>
        let acts1 := reconcile_orders desired s.open_orders s.price_precision s.min_notional
        let acts2 := handle_timeouts s.open_orders s.now_ms
        let res := monitor_position st1 reg atr14 px stakes s.bal
          s.price_precision s.qty_precision s.order_ok
        some (res.1, acts1 ++ acts2 ++ res.2)

/-- Run a sequence of ticks from a state, stopping on an uncaught
exception (the action lists are dropped; only the state is threaded). -/
def run_ticks (st : StateStore) : List Snapshot → Option StateStore
  | [] => some st
  | s :: rest =>
    match on_tick st s with
    | none => none
    | some (st', _) => run_ticks st' rest

/-- A single-path filesystem operation performed by `StateStore.save`
(the state file `STATE_PATH` is the only path involved). -/
inductive FsOp where
  | openTruncate (path : String)
  | writeAll (path : String)
  | closeFile (path : String)
  | rename (src dst : String)
deriving DecidableEq, Repr

/-- The module-level `STATE_PATH`. -/
def STATE_PATH : String := "state.json"

/-- The filesystem trace of `StateStore.save`:
`open(STATE_PATH, "w")` (which truncates the file in place), then
`json.dump(asdict(self), fh, ...)`, then the implicit close.  No temporary
file and no rename appear in the source. -/
def saveTrace (_st : StateStore) : List FsOp :=
  [FsOp.openTruncate STATE_PATH, FsOp.writeAll STATE_PATH, FsOp.closeFile STATE_PATH]

/-- Contents of the state file as a crash at some point would observe it:
the previous snapshot, truncated/partial, or the new snapshot. -/
inductive FileVal where
  | oldSnap
  | truncated
  | newSnap
deriving DecidableEq, Repr

/-- Effect of one filesystem operation on the state-file contents:
truncating open empties it, a completed write fills it, a rename of a
fully written temporary atomically publishes the new snapshot. -/
def applyFsOp (v : FileVal) (op : FsOp) : FileVal :=
  match op with
  | .openTruncate p => if p = STATE_PATH then .truncated else v
  | .writeAll p => if p = STATE_PATH then .newSnap else v
  | .closeFile _ => v
  | .rename _ dst => if dst = STATE_PATH then .newSnap else v

/-- State-file contents after the first `k` operations of a trace. -/
def fileAfter (trace : List FsOp) (k : ℕ) : FileVal :=
  (trace.take k).foldl applyFsOp .oldSnap

/-- Modelled from the spec: "write to temporary location, then move into
place" — a write-then-replace trace touches `STATE_PATH` only through a
final rename from a distinct temporary path that was written beforehand. -/
def writeThenReplace (trace : List FsOp) : Prop :=
  ∃ tmp, tmp ≠ STATE_PATH ∧
    trace = [FsOp.openTruncate tmp, FsOp.writeAll tmp, FsOp.closeFile tmp,
      FsOp.rename tmp STATE_PATH]

/-- Total notional of a stake list at a price. -/
def notionalSum (price : ℚ) (l : List ℚ) : ℚ :=
  (l.map (fun q => q * price)).sum

/-- The reconciliation key as claim C8 words it: price rounded to the venue
price precision, quantity rounded to the venue *quantity* precision. -/
def claimOrderKey (price_prec qty_prec : ℕ) (o : PyOrder) : String × ℚ × ℚ :=
  (o.side, pyround (o.price.getD 0) price_prec,
    pyround (o.qty.getD (o.amount.getD 0)) qty_prec)

/-- Is this venue call a market sell (the strategy's exit order shape)? -/
def isMarketSell : Action → Bool
  | .create otype side _ _ _ => otype = "market" ∧ side = "sell"
  | .cancel _ => false

/-! ## Lemmas about the cap walk of `RiskSizer.compute_stakes` -/

theorem clipStakes_take_eq (price cap : ℚ) :
    ∀ (l : List ℚ) (t : ℚ), ∃ k, clipStakes price cap l t = l.take k := by
  intro l
  induction l with
  | nil => intro t; exact ⟨0, rfl⟩
  | cons q rest ih =>
    intro t
    by_cases h : t + q * price > cap
    · exact ⟨0, by simp [clipStakes, h]⟩
    · obtain ⟨k, hk⟩ := ih (t + q * price)
      exact ⟨k + 1, by simp [clipStakes, h, hk]⟩

theorem clipStakes_sum_le (price cap : ℚ) :
    ∀ (l : List ℚ) (t : ℚ), clipStakes price cap l t ≠ [] →
      t + notionalSum price (clipStakes price cap l t) ≤ cap := by
  intro l
  induction l with
  | nil => intro t h; simp [clipStakes] at h
  | cons q rest ih =>
    intro t _h
    by_cases h : t + q * price > cap
    · simp [clipStakes, h] at _h
    · rw [clipStakes]
      simp only [h, if_false]
      by_cases hr : clipStakes price cap rest (t + q * price) = []
      · rw [hr]
        simp only [notionalSum, List.map_cons, List.map_nil, List.sum_cons, List.sum_nil]
        linarith [not_lt.mp h]
      · have := ih (t + q * price) hr
        simp only [notionalSum, List.map_cons, List.sum_cons] at *
        linarith

theorem clipStakes_maximal (price cap : ℚ) :
    ∀ (l : List ℚ) (t : ℚ),
      (clipStakes price cap l t).length < l.length →
      t + notionalSum price (l.take ((clipStakes price cap l t).length + 1)) > cap := by
  intro l
  induction l with
  | nil => intro t h; simp at h
  | cons q rest ih =>
    intro t hlen
    by_cases h : t + q * price > cap
    · rw [clipStakes]
      simp only [h, if_true, List.length_nil, Nat.zero_add, List.take_succ_cons,
        List.take_zero]
      simpa [notionalSum] using h
    · rw [clipStakes] at hlen ⊢
      simp only [h, if_false, List.length_cons, Nat.add_lt_add_iff_right] at hlen ⊢
      have := ih (t + q * price) hlen
      simp only [List.take_succ_cons, notionalSum, List.map_cons, List.sum_cons] at *
      linarith

/-- C2: `RiskSizer.compute_stakes` returns a prefix of the (rounded)
geometric-decay stake sequence; for nonnegative equity — and, for any
inputs, whenever the result is nonempty — its total notional stays within
`exposure_cap_notional_pct * equity`; the walk truncates exactly at the
first stake whose inclusion would exceed the cap, dropping the rest; and
at the spec's own instance `equity=8000, unit_risk=24, price=2000` the
very first stake busts the cap, so the result is empty (hence has at most
one element). -/
theorem compute_stakes_cap_truncation (equity u_risk price : ℚ) :
    (∃ k, compute_stakes equity u_risk price =
      (stakesSeq (base_stake equity u_risk)).take k)
    ∧ (compute_stakes equity u_risk price ≠ [] →
        notionalSum price (compute_stakes equity u_risk price) ≤
          exposure_cap_notional equity)
    ∧ (0 ≤ equity →
        notionalSum price (compute_stakes equity u_risk price) ≤
          exposure_cap_notional equity)
    ∧ ((compute_stakes equity u_risk price).length <
          (stakesSeq (base_stake equity u_risk)).length →
        notionalSum price ((stakesSeq (base_stake equity u_risk)).take
          ((compute_stakes equity u_risk price).length + 1)) >
          exposure_cap_notional equity)
    ∧ compute_stakes 8000 24 2000 = [] := by
  refine ⟨?_, ?_, ?_, ?_, ?_⟩
  · exact clipStakes_take_eq price (exposure_cap_notional equity)
      (stakesSeq (base_stake equity u_risk)) 0
  · intro h
    have := clipStakes_sum_le price (exposure_cap_notional equity)
      (stakesSeq (base_stake equity u_risk)) 0 h
    simpa [compute_stakes] using this
  · intro h
    by_cases hne : compute_stakes equity u_risk price = []
    · rw [hne]
      simp only [notionalSum, List.map_nil, List.sum_nil]
      unfold exposure_cap_notional Config.exposure_cap_notional_pct
      positivity
    · have := clipStakes_sum_le price (exposure_cap_notional equity)
        (stakesSeq (base_stake equity u_risk)) 0 hne
      simpa [compute_stakes] using this
  · intro h
    have := clipStakes_maximal price (exposure_cap_notional equity)
      (stakesSeq (base_stake equity u_risk)) 0 (by simpa [compute_stakes] using h)
    simpa [compute_stakes] using this
  · have hb : base_stake 8000 24 = 2 := by
      norm_num [base_stake, Config.base_risk_pct, pyround, roundHalfEven]
    simp only [compute_stakes, stakesSeq, hb, clipStakes]
    norm_num [exposure_cap_notional, Config.exposure_cap_notional_pct]

/-- C2 witness: at `equity = 0, unit_risk = 24, price = 1` the stake list
is nonempty and its notional total meets the cap bound. -/
theorem compute_stakes_cap_truncation_witness :
    notionalSum 1 (compute_stakes 0 24 1) ≤ exposure_cap_notional 0 ∧
    compute_stakes 0 24 1 ≠ [] := by
  have hval : compute_stakes 0 24 1 = [0, 0, 0, 0, 0] := by
    have hb : base_stake 0 24 = 0 := by
      norm_num [base_stake, Config.base_risk_pct, pyround, roundHalfEven]
    simp only [compute_stakes, stakesSeq, hb, Config.max_adds, buildAdds, clipStakes]
    norm_num [exposure_cap_notional, Config.exposure_cap_notional_pct,
      Config.add_size_decay, pyround, roundHalfEven]
  have hne : compute_stakes 0 24 1 ≠ [] := by rw [hval]; simp
  exact ⟨(compute_stakes_cap_truncation 0 24 1).2.1 hne, hne⟩

/-! ## Lemmas about `Strategy.monitor_position` -/

theorem adds_step_fail_fst (st : StateStore) (stakes : List ℚ) (atr14 price : ℚ)
    (pp qp : ℕ) : (adds_step st stakes atr14 price pp qp false).1 = st := by
  unfold adds_step
  split
  · cases pyOrOpt st.last_add_price st.entry_price with
    | none => rfl
    | some lp => dsimp only; split <;> rfl
  · rfl

theorem adds_step_entry (st : StateStore) (stakes : List ℚ) (atr14 price : ℚ)
    (pp qp : ℕ) (ok : Bool) :
    (adds_step st stakes atr14 price pp qp ok).1.entry_price = st.entry_price ∧
    (adds_step st stakes atr14 price pp qp ok).1.last_exit_price = st.last_exit_price ∧
    (adds_step st stakes atr14 price pp qp ok).1.bootstrap_state = st.bootstrap_state ∧
    (adds_step st stakes atr14 price pp qp ok).2.any isMarketSell = false := by
  unfold adds_step
  split
  · cases pyOrOpt st.last_add_price st.entry_price with
    | none => simp
    | some lp =>
      dsimp only
      split
      · cases ok <;> simp [isMarketSell]
      · simp
  · simp

/-- The take-profit branch of `monitor_position`: with a held position, a
tracked entry and the TP condition, the function returns the TP market
sell and the FLAT reset, recording `last_exit_price` only on success. -/
theorem monitor_tp_fire (st : StateStore) (reg : String) (atr14 price : ℚ)
    (stakes : List ℚ) (bal : Balances) (pp qp : ℕ) (ok : Bool) (e : ℚ)
    (hpos : 0 < bal.eth_free + bal.eth_locked)
    (hentry : st.entry_price = some e)
    (htp : price ≥ e + (exit_rules reg atr14 e st.last_exit_price).1) :
    monitor_position st reg atr14 price stakes bal pp qp ok =
      ({ st with last_exit_price := if ok then some price else st.last_exit_price, entry_price := none, add_count := 0, trail_active := false },
       [Action.create "market" "sell" (pyround (bal.eth_free + bal.eth_locked) qp) none false]) := by
  have hple : ¬ (bal.eth_free + bal.eth_locked ≤ 0) := not_le.mpr hpos
  have hnone : ¬ (st.entry_price = none) := by rw [hentry]; simp
  simp only [monitor_position]
  rw [if_neg hple, if_neg hnone, hentry]
  simp only [Option.getD_some]
  rw [if_pos htp]
  cases ok <;> rfl

/-- The trailing-stop-trigger branch of `monitor_position`: with a held
position, a tracked entry, the take-profit condition false, the trail
armed with a recorded anchor `a` and distance `d ≠ 0`, price not above
the anchor (no ratchet) and at or below `a - d`, the function returns the
trailing market sell and the FLAT reset, recording `last_exit_price`
only on success. -/
theorem monitor_trail_fire (st : StateStore) (reg : String) (atr14 price : ℚ)
    (stakes : List ℚ) (bal : Balances) (pp qp : ℕ) (ok : Bool) (e a d : ℚ)
    (hpos : 0 < bal.eth_free + bal.eth_locked)
    (hentry : st.entry_price = some e)
    (hNotTp : ¬ (price ≥ e + (exit_rules reg atr14 e st.last_exit_price).1))
    (htrail : st.trail_active = true)
    (hanchor : st.trail_anchor_price = some a)
    (hdist : st.trail_dist_atr = some d)
    (hd0 : d ≠ 0)
    (hnr : ¬ (price > a))
    (htrig : price ≤ a - d) :
    monitor_position st reg atr14 price stakes bal pp qp ok =
      ({ st with last_exit_price := if ok then some price else st.last_exit_price, entry_price := none, add_count := 0, trail_active := false },
       [Action.create "market" "sell" (pyround (bal.eth_free + bal.eth_locked) qp) none false]) := by
  have hple : ¬ (bal.eth_free + bal.eth_locked ≤ 0) := not_le.mpr hpos
  have hnone : ¬ (st.entry_price = none) := by rw [hentry]; simp
  simp only [monitor_position]
  rw [if_neg hple, if_neg hnone, hentry]
  simp only [Option.getD_some]
  rw [if_neg hNotTp]
  rw [if_neg (by simp [htrail])]
  rw [if_pos htrail]
  rw [hanchor]
  simp only [Option.getD_some]
  rw [if_neg hnr]
  rw [hanchor]
  simp only [Option.getD_some]
  rw [hdist]
  simp only [pyOrOpt]
  simp only [if_neg hd0]
  simp only [Option.getD_some]
  rw [if_pos htrig]
  cases ok <;> first | rfl | simp [hanchor, hdist]

/-- C5 (confirmed): when the take-profit condition and the trailing-stop
trigger condition hold on the same tick, `monitor_position` emits exactly
the take-profit market sell, resets the state to FLAT (`entry_price`
cleared, `add_count` zero, `trail_active` false, and `last_exit_price`
recorded only if the venue call succeeded), and never evaluates the
trailing-stop logic (the anchor is left untouched). -/
theorem monitor_tp_precedence (st : StateStore) (reg : String) (atr14 price : ℚ)
    (stakes : List ℚ) (bal : Balances) (pp qp : ℕ) (ok : Bool) (e a d : ℚ)
    (hpos : 0 < bal.eth_free + bal.eth_locked)
    (hentry : st.entry_price = some e)
    (htrail : st.trail_active = true)
    (hanchor : st.trail_anchor_price = some a)
    (hdist : st.trail_dist_atr = some d)
    (htp : price ≥ e + (exit_rules reg atr14 e st.last_exit_price).1)
    (htrig : price ≤ a - d) :
    monitor_position st reg atr14 price stakes bal pp qp ok =
      ({ st with last_exit_price := if ok then some price else st.last_exit_price, entry_price := none, add_count := 0, trail_active := false },
       [Action.create "market" "sell" (pyround (bal.eth_free + bal.eth_locked) qp) none false]) :=
  monitor_tp_fire st reg atr14 price stakes bal pp qp ok e hpos hentry htp

/-- C5 witness: a concrete state and tick on which both conditions hold
and the result is exactly the take-profit exit. -/
theorem monitor_tp_precedence_witness :
    monitor_position
      { last_exit_price := none, trail_active := true, trail_anchor_price := some 150, trail_dist_atr := some 5, entry_price := some 100 }
      "RANGE" 1 112 [] { eth_free := 1 } 2 6 true =
      ({ last_exit_price := some 112, trail_active := false, trail_anchor_price := some 150, trail_dist_atr := some 5, entry_price := none },
       [Action.create "market" "sell" (pyround 1 6) none false]) := by
  have h := monitor_tp_precedence
    { last_exit_price := none, trail_active := true, trail_anchor_price := some 150, trail_dist_atr := some 5, entry_price := some 100 }
    "RANGE" 1 112 [] { eth_free := 1 } 2 6 true 100 150 5
    (by norm_num) rfl rfl rfl rfl
    (by simp only [exit_rules]; rw [if_neg (by decide)]; norm_num [Config.range_tp_floor_pct])
    (by norm_num)
  simpa using h

/-- C1 counterexample: a tick whose take-profit `create_order` fails
(`order_ok = false`) still clears `entry_price` (and resets the position
tracking) — the persisted state is *not* unchanged by the failed step. -/
theorem monitor_failed_exit_mutates_state :
    (monitor_position { entry_price := some 100 } "RANGE" 1 200 [] { eth_free := 1 } 2 6 false).1.entry_price = none
    ∧ ({ entry_price := some 100 } : StateStore).entry_price = some 100
    ∧ (monitor_position { entry_price := some 100 } "RANGE" 1 200 [] { eth_free := 1 } 2 6 false).2 ≠ [] := by
  have h := monitor_tp_fire { entry_price := some 100 } "RANGE" 1 200 [] { eth_free := 1 } 2 6 false 100
    (by norm_num) rfl
    (by simp only [exit_rules]; rw [if_neg (by decide)]; norm_num [Config.range_tp_floor_pct, max_def])
  rw [h]
  refine ⟨rfl, rfl, by simp⟩

/-- C1 amended: a failed add submission leaves the state fully unchanged
(`add_count`/`last_add_price` are only updated after a successful
`create_order`), and a failed exit submission never records
`last_exit_price`; but a failed take-profit exit — and likewise a failed
trailing-stop exit — still clears `entry_price`, resets `add_count` and
clears `trail_active`. -/
theorem monitor_failed_order_semantics :
    (∀ st stakes atr14 price pp qp,
      (adds_step st stakes atr14 price pp qp false).1 = st)
    ∧ (∀ st reg atr14 price stakes bal pp qp,
        (monitor_position st reg atr14 price stakes bal pp qp false).1.last_exit_price =
          st.last_exit_price)
    ∧ (∀ st reg atr14 price stakes bal pp qp e,
        0 < bal.eth_free + bal.eth_locked →
        st.entry_price = some e →
        price ≥ e + (exit_rules reg atr14 e st.last_exit_price).1 →
        monitor_position st reg atr14 price stakes bal pp qp false =
          ({ st with entry_price := none, add_count := 0, trail_active := false },
           [Action.create "market" "sell" (pyround (bal.eth_free + bal.eth_locked) qp) none false]))
    ∧ (∀ st reg atr14 price stakes bal pp qp e a d,
        0 < bal.eth_free + bal.eth_locked →
        st.entry_price = some e →
        ¬ (price ≥ e + (exit_rules reg atr14 e st.last_exit_price).1) →
        st.trail_active = true →
        st.trail_anchor_price = some a →
        st.trail_dist_atr = some d →
        d ≠ 0 →
        ¬ (price > a) →
        price ≤ a - d →
        monitor_position st reg atr14 price stakes bal pp qp false =
          ({ st with entry_price := none, add_count := 0, trail_active := false },
           [Action.create "market" "sell" (pyround (bal.eth_free + bal.eth_locked) qp) none false])) := by
  refine ⟨adds_step_fail_fst, ?_, ?_, ?_⟩
  · intro st reg atr14 price stakes bal pp qp
    simp only [monitor_position, Bool.false_eq_true, if_false]
    split_ifs <;> first | rfl | (rw [adds_step_fail_fst])
  · intro st reg atr14 price stakes bal pp qp e hpos hentry htp
    have h := monitor_tp_fire st reg atr14 price stakes bal pp qp false e hpos hentry htp
    simpa using h
  · intro st reg atr14 price stakes bal pp qp e a d hpos hentry hNotTp htrail hanchor hdist hd0 hnr htrig
    have h := monitor_trail_fire st reg atr14 price stakes bal pp qp false e a d
      hpos hentry hNotTp htrail hanchor hdist hd0 hnr htrig
    simpa using h

/-- C1 witness: the failed-take-profit and failed-trailing-stop shapes of
the amended claim at concrete inputs. -/
theorem monitor_failed_order_semantics_witness :
    (monitor_position { entry_price := some 100 } "RANGE" 1 200 [] { eth_free := 1 } 2 6 false =
      ({ entry_price := none, add_count := 0, trail_active := false },
       [Action.create "market" "sell" (pyround 1 6) none false]))
    ∧ (monitor_position { entry_price := some 100, trail_active := true, trail_anchor_price := some 150, trail_dist_atr := some 5 } "TREND" 1 101 [] { eth_free := 1 } 2 6 false =
      ({ entry_price := none, add_count := 0, trail_active := false, trail_anchor_price := some 150, trail_dist_atr := some 5 },
       [Action.create "market" "sell" (pyround 1 6) none false])) := by
  constructor
  · have h := monitor_failed_order_semantics.2.2.1
      { entry_price := some 100 } "RANGE" 1 200 [] { eth_free := 1 } 2 6 100
      (by norm_num) rfl
      (by simp only [exit_rules]; rw [if_neg (by decide)]; norm_num [Config.range_tp_floor_pct, max_def])
    simpa using h
  · have h := monitor_failed_order_semantics.2.2.2
      { entry_price := some 100, trail_active := true, trail_anchor_price := some 150, trail_dist_atr := some 5 }
      "TREND" 1 101 [] { eth_free := 1 } 2 6 100 150 5
      (by norm_num) rfl
      (by simp only [exit_rules]; rw [if_pos trivial]; norm_num [Config.trend_tp_floor_pct, max_def])
      rfl rfl rfl (by norm_num) (by norm_num) (by norm_num)
    simpa using h

/-- With no held position, `monitor_position` clears `entry_price` and
`trail_active` and attempts nothing. -/
theorem monitor_flat (st : StateStore) (reg : String) (atr14 price : ℚ)
    (stakes : List ℚ) (bal : Balances) (pp qp : ℕ) (ok : Bool)
    (h : bal.eth_free + bal.eth_locked ≤ 0) :
    monitor_position st reg atr14 price stakes bal pp qp ok =
      ({ st with entry_price := none, trail_active := false }, []) := by
  simp only [monitor_position]
  rw [if_pos h]

/-- With a held position but no tracked entry, `monitor_position` behaves
exactly as if run on the state that adopted `entry_price = last_add_price
= price` first. -/
theorem monitor_adopt (st : StateStore) (reg : String) (atr14 price : ℚ)
    (stakes : List ℚ) (bal : Balances) (pp qp : ℕ) (ok : Bool)
    (hpos : 0 < bal.eth_free + bal.eth_locked)
    (hE : st.entry_price = none) :
    monitor_position st reg atr14 price stakes bal pp qp ok =
      monitor_position { st with entry_price := some price, last_add_price := some price }
        reg atr14 price stakes bal pp qp ok := by
  have hple : ¬ (bal.eth_free + bal.eth_locked ≤ 0) := not_le.mpr hpos
  simp only [monitor_position]
  rw [if_neg hple, if_neg hple, if_pos hE, if_neg (by simp : ¬ (({ st with entry_price := some price, last_add_price := some price } : StateStore).entry_price = none))]

/-- With a held position and a tracked entry, `monitor_position` ends with
`entry_price` cleared exactly when it emitted a market sell (an exit). -/
theorem monitor_entry_iff_sell (st : StateStore) (reg : String) (atr14 price : ℚ)
    (stakes : List ℚ) (bal : Balances) (pp qp : ℕ) (ok : Bool) (e : ℚ)
    (hpos : 0 < bal.eth_free + bal.eth_locked)
    (hentry : st.entry_price = some e) :
    ((monitor_position st reg atr14 price stakes bal pp qp ok).1.entry_price = none ↔
      (monitor_position st reg atr14 price stakes bal pp qp ok).2.any isMarketSell = true) := by
  have hple : ¬ (bal.eth_free + bal.eth_locked ≤ 0) := not_le.mpr hpos
  have hnone : ¬ (st.entry_price = none) := by rw [hentry]; simp
  simp only [monitor_position]
  rw [if_neg hple, if_neg hnone, hentry]
  simp only [Option.getD_some]
  split_ifs <;>
    first
      | (rw [(adds_step_entry _ _ _ _ _ _ _).1, (adds_step_entry _ _ _ _ _ _ _).2.2.2]
         simp [hentry])
      | simp [isMarketSell]

/-- C10 counterexample: after a take-profit exit fires, `entry_price` is
`none` although the held base-asset quantity (2 ETH) is strictly
positive — the claimed "entry_price set iff held quantity positive"
biconditional fails. -/
theorem monitor_entry_iff_pos_cex :
    (0 : ℚ) < ({ eth_free := 2 } : Balances).eth_free + ({ eth_free := 2 } : Balances).eth_locked
    ∧ (monitor_position { entry_price := some 50 } "TREND" 2 100 [] { eth_free := 2 } 2 6 true).1.entry_price = none := by
  have h := monitor_tp_fire { entry_price := some 50 } "TREND" 2 100 [] { eth_free := 2 } 2 6 true 50
    (by norm_num) rfl
    (by simp only [exit_rules]; rw [if_pos (by decide)]; norm_num [Config.trend_tp_floor_pct, max_def])
  rw [h]
  exact ⟨by norm_num, rfl⟩

/-- C10 amended: with non-positive held quantity `monitor_position` clears
`entry_price` and `trail_active` and attempts no order; with positive held
quantity and no tracked entry it adopts `entry_price = last_add_price =
price` before the exit/add logic; and with positive held quantity the call
ends with `entry_price` cleared exactly when it emitted a market-sell exit
(so after a take-profit or trailing exit `entry_price` is `none` despite a
positive held quantity). -/
theorem monitor_entry_price_semantics :
    (∀ st reg atr14 price stakes bal pp qp ok, bal.eth_free + bal.eth_locked ≤ 0 →
      monitor_position st reg atr14 price stakes bal pp qp ok =
        ({ st with entry_price := none, trail_active := false }, []))
    ∧ (∀ st reg atr14 price stakes bal pp qp ok, 0 < bal.eth_free + bal.eth_locked →
        st.entry_price = none →
        monitor_position st reg atr14 price stakes bal pp qp ok =
          monitor_position { st with entry_price := some price, last_add_price := some price }
            reg atr14 price stakes bal pp qp ok)
    ∧ (∀ st reg atr14 price stakes bal pp qp ok, 0 < bal.eth_free + bal.eth_locked →
        ((monitor_position st reg atr14 price stakes bal pp qp ok).1.entry_price = none ↔
          (monitor_position st reg atr14 price stakes bal pp qp ok).2.any isMarketSell = true)) := by
  refine ⟨monitor_flat, monitor_adopt, ?_⟩
  intro st reg atr14 price stakes bal pp qp ok hpos
  by_cases hE : st.entry_price = none
  · rw [monitor_adopt st reg atr14 price stakes bal pp qp ok hpos hE]
    exact monitor_entry_iff_sell _ reg atr14 price stakes bal pp qp ok price hpos (by simp)
  · obtain ⟨e, he⟩ := Option.ne_none_iff_exists.mp hE
    exact monitor_entry_iff_sell st reg atr14 price stakes bal pp qp ok e hpos he.symm

/-- C10 witness: the flat branch of the amended claim at a concrete
input. -/
theorem monitor_entry_price_semantics_witness :
    monitor_position { entry_price := some 7, trail_active := true } "RANGE" 1 9 [] { } 2 6 true =
      ({ entry_price := none, trail_active := false }, []) := by
  have h := monitor_entry_price_semantics.1
    { entry_price := some 7, trail_active := true } "RANGE" 1 9 [] { } 2 6 true (by norm_num)
  simpa using h

/-! ## Bootstrap-phase lemmas -/

theorem monitor_bootstrap (st : StateStore) (reg : String) (atr14 price : ℚ)
    (stakes : List ℚ) (bal : Balances) (pp qp : ℕ) (ok : Bool) :
    (monitor_position st reg atr14 price stakes bal pp qp ok).1.bootstrap_state =
      st.bootstrap_state := by
  simp only [monitor_position]
  split_ifs <;>
    first
      | (exact ((adds_step_entry _ _ _ _ _ _ _).2.2.1).trans rfl)
      | (cases ok <;> rfl)
      | rfl

theorem on_tick_done_preserved (st : StateStore) (s : Snapshot) (st' : StateStore)
    (acts : List Action) (h : on_tick st s = some (st', acts))
    (hD : st.bootstrap_state = "DONE") : st'.bootstrap_state = "DONE" := by
  simp only [on_tick] at h
  split at h
  next =>
    simp only [Option.some.injEq, Prod.mk.injEq] at h
    exact h.1 ▸ hD
  next =>
    split at h
    next =>
      simp only [Option.some.injEq, Prod.mk.injEq] at h
      exact h.1 ▸ hD
    next =>
      split at h
      next hne => exact absurd hD hne
      next =>
        split at h
        next => cases h
        next st1 desired heq =>
          simp only [Option.some.injEq, Prod.mk.injEq] at h
          obtain ⟨h1, -⟩ := h
          rw [← h1, monitor_bootstrap]
          split at heq
          next =>
            simp only [Option.some.injEq, Prod.mk.injEq] at heq
            obtain ⟨h2, -⟩ := heq
            rw [← h2]
            exact hD
          next =>
            split at heq
            next =>
              split at heq
              next => cases heq
              next =>
                simp only [Option.some.injEq, Prod.mk.injEq] at heq
                obtain ⟨h2, -⟩ := heq
                rw [← h2]
                exact hD
            next =>
              simp only [Option.some.injEq, Prod.mk.injEq] at heq
              obtain ⟨h2, -⟩ := heq
              rw [← h2]
              exact hD

theorem run_ticks_done (ss : List Snapshot) : ∀ st st',
    st.bootstrap_state = "DONE" → run_ticks st ss = some st' →
    st'.bootstrap_state = "DONE" := by
  induction ss with
  | nil =>
    intro st st' hD h
    simp only [run_ticks, Option.some.injEq] at h
    exact h ▸ hD
  | cons s rest ih =>
    intro st st' hD h
    simp only [run_ticks] at h
    cases he : on_tick st s with
    | none => rw [he] at h; cases h
    | some p =>
      rw [he] at h
      exact ih p.1 st' (on_tick_done_preserved st s p.1 p.2 (by rw [he]) hD) h

/-- C7 (confirmed): `bootstrap_state = "DONE"` is preserved by every tick
(and so by every tick sequence of a process lifetime), and a tick that
starts with `bootstrap_state ≠ "DONE"` either aborts on a guard or runs
only the inventory-bootstrap reconcile — its venue actions are exactly the
bootstrap diff and the only possible state change is the transition to
`"DONE"`; no entry, add, exit or grid logic executes. -/
theorem bootstrap_done_monotonic :
    (∀ st s st' acts, on_tick st s = some (st', acts) →
      st.bootstrap_state = "DONE" → st'.bootstrap_state = "DONE")
    ∧ (∀ st (s : Snapshot), st.bootstrap_state ≠ "DONE" →
        on_tick st s = some (st, [])
        ∨ on_tick st s = some
            ((if Config.target_alloc_pct - Config.target_band ≤ allocation_pct s.bal s.price ∧
                 allocation_pct s.bal s.price ≤ Config.target_alloc_pct + Config.target_band
              then { st with bootstrap_state := "DONE" } else st),
             reconcile_orders (desired_inventory_orders s.vwap1h s.bal s.price s.atr14)
               s.open_orders s.price_precision s.min_notional))
    ∧ (∀ ss st st', st.bootstrap_state = "DONE" → run_ticks st ss = some st' →
        st'.bootstrap_state = "DONE") := by
  refine ⟨on_tick_done_preserved, ?_, run_ticks_done⟩
  intro st s hP
  by_cases h1 : data_fresh s.c5_last_time s.srv_time_ms = false
  · left
    simp only [on_tick]
    rw [if_pos h1]
  · by_cases h2 : spread_ok (s.spread * 10000) = false
    · left
      simp only [on_tick]
      rw [if_neg h1, if_pos h2]
    · right
      simp only [on_tick]
      rw [if_neg h1, if_neg h2, if_pos hP]
      split
      next hc => first | rfl | rw [if_pos hc]
      next hc => first | rfl | rw [if_neg hc]

/-- C7 witness: a DONE state stays DONE across a (stale-data) tick
sequence. -/
theorem bootstrap_done_monotonic_witness :
    run_ticks { bootstrap_state := "DONE" } [{ }] = some { bootstrap_state := "DONE" }
    ∧ ({ bootstrap_state := "DONE" } : StateStore).bootstrap_state = "DONE" :=
  ⟨rfl, bootstrap_done_monotonic.2.2 [{ }] { bootstrap_state := "DONE" }
    { bootstrap_state := "DONE" } rfl rfl⟩

/-! ## Reconciliation lemmas -/

theorem reconcile_nil_open (desired : List PyOrder) (prec : ℕ) (minN : ℚ) :
    reconcile_orders desired [] prec minN =
      (buildMap prec desired).filterMap (fun p => placeOrderAction prec minN p.2) := by
  simp [reconcile_orders, buildMap, hasKey]

/-- C6 (`no-rebuy buffer`): at a tick with `last_exit_price = 2000`,
`ATR14 = 100` (so the buffer is `0.4*100 = 40` and the suppression
threshold `2040`) and price `2001` strictly inside the suppression zone,
`on_tick` still emits a new TREND breakout market-buy entry: the entry
evaluation never consults `last_exit_price`, so the no-rebuy buffer is not
enforced anywhere. -/
theorem no_rebuy_not_enforced :
    ((2001 : ℚ) < 2000 + Config.no_rebuy_buffer_atr * 100)
    ∧ on_tick { bootstrap_state := "DONE", last_exit_price := some 2000 }
        { c5_last_time := some 0, srv_time_ms := 0, now_ms := 0, spread := 0, regime := "TREND", atr14 := 100, price := 2001, vwap1h := 0, aweekly := 1000000, dc_high := 1000, bal := { usdt_free := 8000 }, open_orders := [], price_precision := 2, qty_precision := 6, min_notional := 10, order_ok := true } =
      some ({ bootstrap_state := "DONE", last_exit_price := some 2000, last_add_price := some 2001 },
        [Action.create "market" "buy" (3/5) none false]) := by
  constructor
  · norm_num [Config.no_rebuy_buffer_atr]
  · have hsig : entry_signals 100 0 1000000 1000 2001 "TREND" = Signals.trend true := by
      norm_num [entry_signals]
    have hstakes : compute_stakes (2001 * (0 + 0) + 8000 + 0) (unit_risk 100 2001) 2001 = [3/5, 12/25] := by
      norm_num [compute_stakes, unit_risk, max_def, base_stake, Config.base_risk_pct, stakesSeq,
        Config.max_adds, buildAdds, Config.add_size_decay, clipStakes, exposure_cap_notional,
        Config.exposure_cap_notional_pct, pyround, roundHalfEven]
    have hrec : reconcile_orders [{ side := "buy", qty := some (3/5), otype := some "market" }] [] 2 10 =
        [Action.create "market" "buy" (3/5) none false] := by
      have h1 : buildMap 2 [{ side := "buy", qty := some (3/5), otype := some "market" }] =
          [(("buy", 0, 3/5), { side := "buy", qty := some (3/5), otype := some "market" })] := by
        norm_num [buildMap, dictInsert, orderKey, pyround, roundHalfEven]
      rw [reconcile_nil_open, h1]
      simp only [List.filterMap_cons, List.filterMap_nil, placeOrderAction]
      norm_num [pyround, roundHalfEven]
    simp only [on_tick]
    rw [if_neg (by decide), if_neg (by norm_num [spread_ok, Config.spread_max_bps]),
      if_neg (by decide)]
    rw [hsig]
    rw [if_pos (⟨trivial, rfl⟩ : True ∧ sigLongBreakout (Signals.trend true) = true)]
    dsimp only []
    rw [hstakes]
    simp only [List.headD]
    rw [hrec]
    rw [monitor_flat _ "TREND" 100 2001 [3/5, 12/25] { usdt_free := 8000 } 2 6 true (by norm_num)]
    simp [handle_timeouts]

/-- C3 counterexample: a tick whose 5m data-freshness guard fails returns
immediately with no venue actions and no state change, even though the
take-profit condition holds (position of 1 ETH, entry 100, price 200) —
the identical tick with fresh data does emit the take-profit market sell.
Exit-side logic therefore does **not** run on guard-failed ticks. -/
theorem guard_fail_skips_exit_cex :
    on_tick { bootstrap_state := "DONE", entry_price := some 100 }
      { c5_last_time := none, srv_time_ms := 0, now_ms := 0, spread := 0, regime := "TREND", atr14 := 1, price := 200, vwap1h := 0, aweekly := 1000000, dc_high := 1000000, bal := { eth_free := 1 }, open_orders := [], price_precision := 2, qty_precision := 6, min_notional := 10, order_ok := true } =
      some ({ bootstrap_state := "DONE", entry_price := some 100 }, [])
    ∧ (200 : ℚ) ≥ 100 + (exit_rules "TREND" 1 100 none).1
    ∧ on_tick { bootstrap_state := "DONE", entry_price := some 100 }
      { c5_last_time := some 0, srv_time_ms := 0, now_ms := 0, spread := 0, regime := "TREND", atr14 := 1, price := 200, vwap1h := 0, aweekly := 1000000, dc_high := 1000000, bal := { eth_free := 1 }, open_orders := [], price_precision := 2, qty_precision := 6, min_notional := 10, order_ok := true } =
      some ({ bootstrap_state := "DONE", last_exit_price := some 200 },
        [Action.create "market" "sell" 1 none false]) := by
  refine ⟨?_, ?_, ?_⟩
  · simp only [on_tick]
    rw [if_pos (show data_fresh none 0 = false from rfl)]
  · simp only [exit_rules]
    rw [if_pos trivial]
    norm_num [Config.trend_tp_floor_pct, max_def]
  · have hsig : entry_signals 1 0 1000000 1000000 200 "TREND" = Signals.trend false := by
      norm_num [entry_signals]
    simp only [on_tick]
    rw [if_neg (by decide), if_neg (by norm_num [spread_ok, Config.spread_max_bps]),
      if_neg (by decide)]
    rw [hsig]
    rw [if_neg (by simp [sigLongBreakout]), if_neg (by simp)]
    dsimp only []
    rw [monitor_tp_fire { bootstrap_state := "DONE", entry_price := some 100 } "TREND" 1 200 _
      { eth_free := 1 } 2 6 true 100 (by norm_num) rfl
      (by simp only [exit_rules]; rw [if_pos trivial]; norm_num [Config.trend_tp_floor_pct, max_def])]
    simp only [reconcile_orders, buildMap, List.foldl_nil, List.filter_nil, List.filterMap_nil,
      handle_timeouts, List.nil_append]
    norm_num [pyround, roundHalfEven]

/-- C3 amended: only the data-freshness and spread guards are enforced,
and a failure of either aborts the whole tick — `on_tick` returns with no
venue actions and no state change, so exit-side logic (take-profit,
trailing stop, timeouts) does *not* run either.  The daily-loss guard
(`Guards.daily_loss_ok`) is never consulted: a state whose realized daily
loss far exceeds 1.2% of equity still enters on a breakout tick. -/
theorem guard_fail_aborts_whole_tick :
    (∀ (st : StateStore) (s : Snapshot),
      data_fresh s.c5_last_time s.srv_time_ms = false ∨
        spread_ok (s.spread * 10000) = false →
      on_tick st s = some (st, []))
    ∧ daily_loss_ok { bootstrap_state := "DONE", daily_loss_realized := 1000 } 4000 = false
    ∧ on_tick { bootstrap_state := "DONE", daily_loss_realized := 1000 }
        { c5_last_time := some 0, srv_time_ms := 0, now_ms := 0, spread := 0, regime := "TREND", atr14 := 200, price := 3000, vwap1h := 0, aweekly := 10000000, dc_high := 2999, bal := { usdt_free := 4000 }, open_orders := [], price_precision := 2, qty_precision := 6, min_notional := 10, order_ok := true } =
      some ({ bootstrap_state := "DONE", daily_loss_realized := 1000, last_add_price := some 3000 },
        [Action.create "market" "buy" (3/20) none false]) := by
  refine ⟨?_, ?_, ?_⟩
  · intro st s h
    by_cases h1 : data_fresh s.c5_last_time s.srv_time_ms = false
    · simp only [on_tick]
      rw [if_pos h1]
    · simp only [on_tick]
      rw [if_neg h1, if_pos (h.resolve_left h1)]
  · norm_num [daily_loss_ok]
  · have hsig : entry_signals 200 0 10000000 2999 3000 "TREND" = Signals.trend true := by
      norm_num [entry_signals]
    have hstakes : compute_stakes (3000 * (0 + 0) + 4000 + 0) (unit_risk 200 3000) 3000 =
        [3/20, 3/25, 12/125] := by
      norm_num [compute_stakes, unit_risk, max_def, base_stake, Config.base_risk_pct, stakesSeq,
        Config.max_adds, buildAdds, Config.add_size_decay, clipStakes, exposure_cap_notional,
        Config.exposure_cap_notional_pct, pyround, roundHalfEven]
    have hrec : reconcile_orders [{ side := "buy", qty := some (3/20), otype := some "market" }] [] 2 10 =
        [Action.create "market" "buy" (3/20) none false] := by
      have h1 : buildMap 2 [{ side := "buy", qty := some (3/20), otype := some "market" }] =
          [(("buy", 0, 3/20), { side := "buy", qty := some (3/20), otype := some "market" })] := by
        norm_num [buildMap, dictInsert, orderKey, pyround, roundHalfEven]
      rw [reconcile_nil_open, h1]
      simp only [List.filterMap_cons, List.filterMap_nil, placeOrderAction]
      norm_num [pyround, roundHalfEven]
    simp only [on_tick]
    rw [if_neg (by decide), if_neg (by norm_num [spread_ok, Config.spread_max_bps]),
      if_neg (by decide)]
    rw [hsig]
    rw [if_pos (⟨trivial, rfl⟩ : True ∧ sigLongBreakout (Signals.trend true) = true)]
    dsimp only []
    rw [hstakes]
    simp only [List.headD]
    rw [hrec]
    rw [monitor_flat _ "TREND" 200 3000 [3/20, 3/25, 12/125] { usdt_free := 4000 } 2 6 true
      (by norm_num)]
    simp [handle_timeouts]

/-- C3 witness: the guard-abort branch of the amended claim at a concrete
stale-data input. -/
theorem guard_fail_aborts_whole_tick_witness :
    on_tick { } { c5_last_time := none } = some ({ }, []) :=
  guard_fail_aborts_whole_tick.1 { } { c5_last_time := none } (Or.inl rfl)

theorem hasKey_dictInsert (m : List ((String × ℚ × ℚ) × PyOrder))
    (k' : String × ℚ × ℚ) (v : PyOrder) (k : String × ℚ × ℚ) :
    hasKey (dictInsert m k' v) k = (hasKey m k || decide (k' = k)) := by
  unfold dictInsert hasKey
  split
  next hany =>
    rw [List.any_map]
    have hfun : ∀ p' : (String × ℚ × ℚ) × PyOrder,
        ((fun p => decide (p.1 = k)) ∘ fun p => if p.1 = k' then (p.1, v) else p) p' =
          decide (p'.1 = k) := by
      intro p'
      simp only [Function.comp]
      split <;> rfl
    rw [funext hfun]
    by_cases hk : k' = k
    · subst hk
      simp [hany]
    · simp [hk]
  next =>
    rw [List.any_append]
    simp

theorem hasKey_buildMap_aux (prec : ℕ) : ∀ (os : List PyOrder)
    (m : List ((String × ℚ × ℚ) × PyOrder)) (k : String × ℚ × ℚ),
    hasKey (os.foldl (fun m o => dictInsert m (orderKey prec o) o) m) k =
      (hasKey m k || (os.map (orderKey prec)).any (fun k' => decide (k' = k))) := by
  intro os
  induction os with
  | nil => intro m k; simp
  | cons o os ih =>
    intro m k
    simp only [List.foldl_cons, List.map_cons, List.any_cons]
    rw [ih, hasKey_dictInsert]
    cases hasKey m k <;> cases hd : decide (orderKey prec o = k) <;> simp [hd]

theorem hasKey_buildMap (prec : ℕ) (os : List PyOrder) (k : String × ℚ × ℚ) :
    hasKey (buildMap prec os) k = true ↔ k ∈ os.map (orderKey prec) := by
  unfold buildMap
  rw [hasKey_buildMap_aux]
  simp only [hasKey, List.any_nil, Bool.false_or, List.any_eq_true]
  constructor
  · rintro ⟨k', hk', he⟩
    simp only [decide_eq_true_eq] at he
    exact he ▸ hk'
  · intro hk
    exact ⟨k, hk, by simp⟩

/-- C4 counterexample: a RANGE tick that places two grid orders returns
the *unchanged* persisted state, so a second `on_tick` with identical
gateway responses (in particular the same empty open-order list) is the
very same application and re-emits the same two placements — the second
call's reconciliation diff is not empty and venue actions are repeated. -/
theorem on_tick_not_idempotent_cex :
    on_tick { bootstrap_state := "DONE" }
      { c5_last_time := some 0, srv_time_ms := 0, now_ms := 0, spread := 0, regime := "RANGE", atr14 := 1, price := 1, vwap1h := 1, aweekly := 0, dc_high := 0, bal := { usdt_free := 10000 }, open_orders := [], price_precision := 2, qty_precision := 6, min_notional := 10, order_ok := true } =
      some ({ bootstrap_state := "DONE" },
        [Action.create "limit" "buy" 75 (some (1/4)) true,
         Action.create "limit" "sell" 75 (some (7/4)) true])
    ∧ ([Action.create "limit" "buy" 75 (some (1/4)) true,
        Action.create "limit" "sell" 75 (some (7/4)) true] : List Action) ≠ [] := by
  refine ⟨?_, by simp⟩
  have hsig : entry_signals 1 1 0 0 1 "RANGE" = Signals.range (3/4) := by
    simp only [entry_signals]
    rw [if_neg (by decide)]
    norm_num [Config.grid_step_min_pct, max_def]
  have hstakes : compute_stakes (1 * (0 + 0) + 10000 + 0) (unit_risk 1 1) 1 =
      [75, 60, 48, 192/5, 768/25] := by
    norm_num [compute_stakes, unit_risk, max_def, base_stake, Config.base_risk_pct, stakesSeq,
      Config.max_adds, buildAdds, Config.add_size_decay, clipStakes, exposure_cap_notional,
      Config.exposure_cap_notional_pct, pyround, roundHalfEven]
  have hrec : reconcile_orders
      [{ side := "buy", price := some (1 - 3/4), qty := some 75, post_only := true },
       { side := "sell", price := some (1 + 3/4), qty := some 75, post_only := true }] [] 2 10 =
      [Action.create "limit" "buy" 75 (some (1/4)) true,
       Action.create "limit" "sell" 75 (some (7/4)) true] := by
    have h1 : buildMap 2
        [{ side := "buy", price := some (1 - 3/4), qty := some 75, post_only := true },
         { side := "sell", price := some (1 + 3/4), qty := some 75, post_only := true }] =
        [(("buy", 1/4, 75), { side := "buy", price := some (1 - 3/4), qty := some 75, post_only := true }),
         (("sell", 7/4, 75), { side := "sell", price := some (1 + 3/4), qty := some 75, post_only := true })] := by
      norm_num [buildMap, dictInsert, orderKey, pyround, roundHalfEven]
    rw [reconcile_nil_open, h1]
    simp only [List.filterMap_cons, List.filterMap_nil, placeOrderAction]
    norm_num [pyround, roundHalfEven]
  simp only [on_tick]
  rw [if_neg (by decide), if_neg (by norm_num [spread_ok, Config.spread_max_bps]),
    if_neg (by decide)]
  rw [hsig]
  rw [if_neg (by simp [sigLongBreakout]), if_pos (by simp [sigHasGridStep])]
  rw [hstakes]
  dsimp only [sigGridStep]
  rw [hrec]
  rw [monitor_flat _ "RANGE" 1 1 [75, 60, 48, 192/5, 768/25] { usdt_free := 10000 } 2 6 true
    (by norm_num)]
  simp [handle_timeouts]

/-- C4 amended: `on_tick` is not idempotent under literally repeated
gateway responses (placements are recomputed from the live order list and
re-emitted, see the counterexample); the reconciliation step is idempotent
only in the key-set sense — whenever the desired and live order sets have
the same reconciliation keys, `reconcile_orders` emits no cancellations
and no placements at all. -/
theorem reconcile_keyset_match_empty (desired opens : List PyOrder) (prec : ℕ)
    (minN : ℚ)
    (h : ∀ k, k ∈ desired.map (orderKey prec) ↔ k ∈ opens.map (orderKey prec)) :
    reconcile_orders desired opens prec minN = [] := by
  have hc : (buildMap prec opens).filter
      (fun p => ! hasKey (buildMap prec desired) p.1) = [] := by
    rw [List.filter_eq_nil_iff]
    intro p hp
    have hk : hasKey (buildMap prec opens) p.1 = true :=
      List.any_eq_true.mpr ⟨p, hp, by simp⟩
    have hmem : p.1 ∈ opens.map (orderKey prec) := (hasKey_buildMap prec opens p.1).mp hk
    have hdes : hasKey (buildMap prec desired) p.1 = true :=
      (hasKey_buildMap prec desired p.1).mpr ((h p.1).mpr hmem)
    simp [hdes]
  have hp : (buildMap prec desired).filter
      (fun p => ! hasKey (buildMap prec opens) p.1) = [] := by
    rw [List.filter_eq_nil_iff]
    intro p hpm
    have hk : hasKey (buildMap prec desired) p.1 = true :=
      List.any_eq_true.mpr ⟨p, hpm, by simp⟩
    have hmem : p.1 ∈ desired.map (orderKey prec) := (hasKey_buildMap prec desired p.1).mp hk
    have hop : hasKey (buildMap prec opens) p.1 = true :=
      (hasKey_buildMap prec opens p.1).mpr ((h p.1).mp hmem)
    simp [hop]
  simp only [reconcile_orders, hc, hp, List.filterMap_nil, List.nil_append]

/-- C4 witness: one desired and one live order with the same key produce
an empty diff. -/
theorem reconcile_keyset_match_empty_witness :
    reconcile_orders [{ side := "buy", price := some 1, qty := some 2 }]
      [{ side := "buy", price := some 1, amount := some 2, id := some "7" }] 2 10 = [] := by
  have hkeys : ([{ side := "buy", price := some 1, qty := some 2 }] : List PyOrder).map (orderKey 2) =
      ([{ side := "buy", price := some 1, amount := some 2, id := some "7" }] : List PyOrder).map (orderKey 2) := by
    norm_num [orderKey, pyround, roundHalfEven]
  exact reconcile_keyset_match_empty _ _ 2 10 (fun k => by rw [hkeys])

theorem buildMap_nodup_aux (prec : ℕ) : ∀ (os : List PyOrder)
    (m : List ((String × ℚ × ℚ) × PyOrder)),
    (∀ p ∈ m, p.1 ∉ os.map (orderKey prec)) → (os.map (orderKey prec)).Nodup →
    os.foldl (fun m o => dictInsert m (orderKey prec o) o) m =
      m ++ os.map (fun o => (orderKey prec o, o)) := by
  intro os
  induction os with
  | nil => intro m _ _; simp
  | cons o os ih =>
    intro m hdis hnd
    simp only [List.foldl_cons]
    have hnotin : ∀ p ∈ m, p.1 ≠ orderKey prec o := by
      intro p hp
      have := hdis p hp
      simp only [List.map_cons, List.mem_cons] at this
      exact fun hc => this (Or.inl hc)
    have hins : dictInsert m (orderKey prec o) o = m ++ [(orderKey prec o, o)] := by
      unfold dictInsert
      rw [if_neg ?hc]
      case hc =>
        simp only [List.any_eq_true, decide_eq_true_eq, not_exists]
        rintro p ⟨hp, hpk⟩
        exact hnotin p hp hpk
    rw [hins]
    simp only [List.map_cons, List.nodup_cons] at hnd
    rw [ih (m ++ [(orderKey prec o, o)]) ?dis hnd.2]
    · simp
    case dis =>
      intro p hp
      rcases List.mem_append.mp hp with hp | hp
      · have := hdis p hp
        simp only [List.map_cons, List.mem_cons] at this
        intro hc
        exact this (Or.inr hc)
      · simp only [List.mem_singleton] at hp
        subst hp
        exact hnd.1

theorem buildMap_nodup (prec : ℕ) (os : List PyOrder)
    (h : (os.map (orderKey prec)).Nodup) :
    buildMap prec os = os.map (fun o => (orderKey prec o, o)) := by
  unfold buildMap
  rw [buildMap_nodup_aux prec os [] (by simp) h]
  simp

theorem hasKey_map_pair (prec : ℕ) (os : List PyOrder) (k : String × ℚ × ℚ) :
    hasKey (os.map (fun o => (orderKey prec o, o))) k =
      decide (k ∈ os.map (orderKey prec)) := by
  by_cases hmem : k ∈ os.map (orderKey prec)
  · obtain ⟨o, ho, hk⟩ := List.mem_map.mp hmem
    have : hasKey (os.map (fun o => (orderKey prec o, o))) k = true := by
      refine List.any_eq_true.mpr ⟨(orderKey prec o, o), List.mem_map_of_mem _ ho, ?_⟩
      simp [hk]
    simp [this, hmem]
  · have : hasKey (os.map (fun o => (orderKey prec o, o))) k = false := by
      simp only [hasKey, List.any_eq_false, List.mem_map, decide_eq_true_eq]
      rintro p ⟨o, ho, rfl⟩ hk
      exact hmem (List.mem_map.mpr ⟨o, ho, hk⟩)
    simp [this, hmem]

/-- C8 counterexample: with venue price precision 2 and quantity precision
6, a desired order of quantity `0.123456` and a live order of quantity
`0.12` get the *same* reconciliation key (the code rounds quantity with
the price precision), so `reconcile_orders` performs no action — although
under the claimed key `(side, price@price_precision, qty@qty_precision)`
the desired order is absent from the live set and meets the minimum
notional, so the claim mandates a placement. -/
theorem reconcile_qty_precision_cex :
    reconcile_orders [{ side := "buy", price := some 100, qty := some (123456/1000000) }]
      [{ side := "buy", price := some 100, amount := some (12/100), id := some "1" }] 2 10 = []
    ∧ claimOrderKey 2 6 { side := "buy", price := some 100, qty := some (123456/1000000) } ∉
      ([{ side := "buy", price := some 100, amount := some (12/100), id := some "1" }] : List PyOrder).map (claimOrderKey 2 6)
    ∧ (100 : ℚ) * (123456/1000000) ≥ 10 := by
  refine ⟨?_, ?_, by norm_num⟩
  · have h1 : buildMap 2 [{ side := "buy", price := some 100, qty := some (123456/1000000) }] =
        [(("buy", 100, 12/100), { side := "buy", price := some 100, qty := some (123456/1000000) })] := by
      norm_num [buildMap, dictInsert, orderKey, pyround, roundHalfEven]
    have h2 : buildMap 2 [{ side := "buy", price := some 100, amount := some (12/100), id := some "1" }] =
        [(("buy", 100, 12/100), { side := "buy", price := some 100, amount := some (12/100), id := some "1" })] := by
      norm_num [buildMap, dictInsert, orderKey, pyround, roundHalfEven]
    simp only [reconcile_orders, h1, h2]
    norm_num [hasKey]
  · norm_num [claimOrderKey, pyround, roundHalfEven]

/-- C8 amended: the diff key rounds *both* price and quantity with the
single `precision` argument (the venue price precision at both call
sites); with collision-free keys, the emitted actions are exactly the
cancellations of live orders whose key is absent from the desired set
(skipping orders without an id), followed by the placements of desired
orders whose key is absent from the live set, where a placement happens
only if the order is market (no price key) or meets
`price*qty ≥ min_notional` — below-notional priced orders are silently
dropped. -/
theorem reconcile_orders_diff (desired opens : List PyOrder) (prec : ℕ) (minN : ℚ)
    (hd : (desired.map (orderKey prec)).Nodup)
    (ho : (opens.map (orderKey prec)).Nodup) :
    reconcile_orders desired opens prec minN =
      (opens.filter
        (fun o => ! decide (orderKey prec o ∈ desired.map (orderKey prec)))).filterMap
          (fun o => o.id.map Action.cancel)
      ++ (desired.filter
        (fun o => ! decide (orderKey prec o ∈ opens.map (orderKey prec)))).filterMap
          (placeOrderAction prec minN) := by
  simp only [reconcile_orders]
  rw [buildMap_nodup prec desired hd, buildMap_nodup prec opens ho]
  rw [List.map_filter, List.map_filter, List.filterMap_map, List.filterMap_map]
  simp only [Function.comp_def]
  congr 1
  · exact congrArg _ (List.filter_congr fun o _ => by rw [hasKey_map_pair])
  · exact congrArg _ (List.filter_congr fun o _ => by rw [hasKey_map_pair])

/-- C8 witness: a live order with no desired twin is cancelled and a
desired order with no live twin is placed, at concrete inputs. -/
theorem reconcile_orders_diff_witness :
    reconcile_orders [{ side := "buy", price := some 5, qty := some 3 }]
      [{ side := "sell", price := some 9, amount := some 1, id := some "z" }] 2 10 =
      [Action.cancel "z", Action.create "limit" "buy" 3 (some 5) false] := by
  have h := reconcile_orders_diff
    [{ side := "buy", price := some 5, qty := some 3 }]
    [{ side := "sell", price := some 9, amount := some 1, id := some "z" }] 2 10
    (by simp) (by simp)
  have hd1 : decide (orderKey 2 { side := "sell", price := some 9, amount := some 1, id := some "z" } ∈
      ([{ side := "buy", price := some 5, qty := some 3 }] : List PyOrder).map (orderKey 2)) = false :=
    decide_eq_false (by norm_num [orderKey, pyround, roundHalfEven])
  have hd2 : decide (orderKey 2 { side := "buy", price := some 5, qty := some 3 } ∈
      ([{ side := "sell", price := some 9, amount := some 1, id := some "z" }] : List PyOrder).map (orderKey 2)) = false :=
    decide_eq_false (by norm_num [orderKey, pyround, roundHalfEven])
  rw [h]
  simp only [List.filter_cons, List.filter_nil, hd1, hd2, Bool.not_false, if_true]
  simp only [List.filterMap_cons, List.filterMap_nil, placeOrderAction]
  norm_num [pyround, roundHalfEven]

/-- C9 counterexample: `StateStore.save` opens the state file in `"w"`
mode, truncating it in place — after the first operation of its trace the
on-disk file is neither the previous snapshot nor the new one, and the
trace is not of the write-to-temporary-then-rename form. -/
theorem save_not_atomic_cex :
    fileAfter (saveTrace { }) 1 = FileVal.truncated
    ∧ FileVal.truncated ≠ FileVal.oldSnap
    ∧ FileVal.truncated ≠ FileVal.newSnap
    ∧ ¬ writeThenReplace (saveTrace { }) := by
  refine ⟨rfl, by decide, by decide, ?_⟩
  rintro ⟨tmp, -, heq⟩
  simp [saveTrace] at heq

/-- C9 amended: `StateStore.save` writes the state file in place — its
filesystem trace is truncate-open, write, close on `STATE_PATH` itself
(no temporary file, no rename); a completed save leaves the new snapshot,
but an interruption right after the open leaves a truncated file. -/
theorem save_in_place_semantics (st : StateStore) :
    saveTrace st = [FsOp.openTruncate STATE_PATH, FsOp.writeAll STATE_PATH,
      FsOp.closeFile STATE_PATH]
    ∧ fileAfter (saveTrace st) 1 = FileVal.truncated
    ∧ fileAfter (saveTrace st) (saveTrace st).length = FileVal.newSnap
    ∧ ∀ op ∈ saveTrace st, op ≠ FsOp.rename STATE_PATH STATE_PATH ∧
        ∀ tmp, op ≠ FsOp.rename tmp STATE_PATH := by
  refine ⟨rfl, rfl, rfl, ?_⟩
  intro op hop
  fin_cases hop <;> exact ⟨by decide, fun tmp => by simp [saveTrace]⟩

/-- C9 witness: the in-place-write shape of the amended claim at the
default state. -/
theorem save_in_place_semantics_witness :
    fileAfter (saveTrace { }) (saveTrace { }).length = FileVal.newSnap
    ∧ FsOp.openTruncate STATE_PATH ≠ FsOp.rename STATE_PATH STATE_PATH :=
  ⟨(save_in_place_semantics { }).2.2.1,
    ((save_in_place_semantics { }).2.2.2 (FsOp.openTruncate STATE_PATH)
      (by simp [saveTrace])).1⟩

end CryptoBot
